import Mathlib

/-!
Verification of the piral micro-frontend loader core.

This file embeds, as Lean definitions, the parts of the repository that the
verified properties are about:

* `inspectPilet` from `src/framework/piral-base/src/inspect.ts` — the entry
  classifier mapping a raw pilet descriptor to a loading-protocol kind and a
  runner.
* the live-update bridge from
  `src/tooling/piral-cli/src/common/importmap.ts` (`installPiletEmulator`) —
  debounced per-name reload scheduling, the teardown-then-reload cycle with
  route-refresh freezing, the hard-refresh bypass, the feed request selection
  and normalization, and the merge of feed pilets with debug pilets.
* `createDependencies` from `src/framework/piral-core/app.codegen` — the code
  generator producing `fillDependencies`, which assigns each shared external,
  imported once, into the dependency map under all of its identifiers.

JavaScript objects with optional fields become structures with `Option`
fields; promise outcomes become `Except`/outcome values; timers become an
explicit pending-timer table driven by timestamped events.
-/

/-! ## Entry classifier (`inspect.ts`) -/

/-- A raw pilet descriptor (`PiletEntry`).  Fields that a JavaScript object
may or may not carry are `Option`s; `'f' in meta` is `f.isSome`.  The value
of `bundle` records the truthiness of the JavaScript value. -/
structure PiletEntry where
  name : String
  link : Option String := none
  spec : Option String := none
  requireRef : Option String := none
  bundle : Option Bool := none
  hash : Option String := none
deriving DecidableEq, Repr

/-- The loading-protocol kind a descriptor classifies into. -/
inductive PiletKind where
  | v0
  | v1
  | v2
  | bundle
  | unknown
deriving DecidableEq, Repr

/-- The runner paired with a classified descriptor. -/
inductive PiletRunner where
  | setupSinglePilet
  | setupPiletBundle
deriving DecidableEq, Repr

/-- The tagged triple `InspectPiletResult` returned by `inspectPilet`. -/
structure InspectPiletResult where
  kind : PiletKind
  entry : PiletEntry
  runner : PiletRunner
deriving DecidableEq, Repr

/-- Truthiness of the `bundle` field: the field must be present and its
value truthy (`'bundle' in meta && meta.bundle`). -/
def bundleTruthy (meta : PiletEntry) : Bool :=
  match meta.bundle with
  | some b => b
  | none => false

/-- The classifier `inspectPilet` from `inspect.ts`, lines 21–35.  Here `inBrowser` models
`typeof document !== 'undefined'`. -/
def inspectPilet (inBrowser : Bool) (meta : PiletEntry) : InspectPiletResult :=
  if inBrowser && meta.link.isSome && (meta.spec == some "v2") then
    ⟨PiletKind.v2, meta, PiletRunner.setupSinglePilet⟩
  else if inBrowser && meta.requireRef.isSome && !(meta.spec == some "v2") then
    ⟨PiletKind.v1, meta, PiletRunner.setupSinglePilet⟩
  else if inBrowser && bundleTruthy meta then
    ⟨PiletKind.bundle, meta, PiletRunner.setupPiletBundle⟩
  else if meta.hash.isSome then
    ⟨PiletKind.v0, meta, PiletRunner.setupSinglePilet⟩
  else
    ⟨PiletKind.unknown, meta, PiletRunner.setupSinglePilet⟩

/-- The classification rules exactly as the specification words them:
evaluated in order, first match wins, with the browser gate on the first
three rules and the content-hash rule applying in any environment. -/
def classifyKindSpec (inBrowser : Bool) (meta : PiletEntry) : PiletKind :=
  if inBrowser && meta.link.isSome && (meta.spec == some "v2") then
    PiletKind.v2
  else if inBrowser && meta.requireRef.isSome && !(meta.spec == some "v2") then
    PiletKind.v1
  else if inBrowser && bundleTruthy meta then
    PiletKind.bundle
  else if meta.hash.isSome then
    PiletKind.v0
  else
    PiletKind.unknown

/-! ## Claims C1 and C2 -/

/-- C1: classification evaluates its rules in order with first match
winning: in a browser-like environment `link` + `spec = "v2"` gives v2;
otherwise in a browser `requireRef` + `spec ≠ "v2"` gives v1; otherwise in a
browser a truthy `bundle` gives bundle; otherwise (browser or not) a `hash`
field gives v0; anything else is unknown.  The code's classifier agrees with
the specification's rule list on every descriptor. -/
theorem inspectPilet_matches_spec_rules (inBrowser : Bool) (meta : PiletEntry) :
    (inspectPilet inBrowser meta).kind = classifyKindSpec inBrowser meta := by
  unfold inspectPilet classifyKindSpec
  repeat' split
  all_goals rfl

/-- C2: classification is total: the result always carries the input
descriptor unchanged, and every descriptor lacking the v0/v1/v2/bundle
shapes yields kind `unknown`, paired with the default single-pilet runner —
the designed fallback rather than an error. -/
theorem inspectPilet_total_unknown_fallback (inBrowser : Bool) (meta : PiletEntry) :
    (inspectPilet inBrowser meta).entry = meta ∧
    ((inBrowser && meta.link.isSome && (meta.spec == some "v2")) = false →
      (inBrowser && meta.requireRef.isSome && !(meta.spec == some "v2")) = false →
      (inBrowser && bundleTruthy meta) = false →
      meta.hash.isSome = false →
      inspectPilet inBrowser meta =
        ⟨PiletKind.unknown, meta, PiletRunner.setupSinglePilet⟩) := by
  constructor
  · unfold inspectPilet
    repeat' split
    all_goals rfl
  · intro h1 h2 h3 h4
    unfold inspectPilet
    rw [h1, h2, h3, h4]
    rfl

/-- Concrete instantiation of C2: the empty-shaped descriptor named "x"
classifies as unknown with the single-pilet runner. -/
theorem inspectPilet_total_unknown_fallback_witness :
    inspectPilet true { name := "x" } =
      ⟨PiletKind.unknown, { name := "x" }, PiletRunner.setupSinglePilet⟩ :=
  (inspectPilet_total_unknown_fallback true { name := "x" }).2
    (by decide) (by decide) (by decide) (by decide)

/-! ## Live-update bridge (`installPiletEmulator` in `importmap.ts`)

The websocket `onmessage` handler keeps `timeoutCache`, a map from pilet
name to a pending `setTimeout` handle (150 ms).  A new notification for a
name clears that name's pending timer and schedules a fresh one carrying
the new payload.  When a timer fires, one teardown-then-reload cycle runs.
We model the handler as a state machine over timestamped notifications;
time is in milliseconds. -/

/-- A parsed change notification (`JSON.parse(data)`): at least a `name`,
plus the rest of the payload. -/
structure PiletMeta where
  name : String
  payload : String
deriving DecidableEq, Repr

/-- The debounce interval of the bridge (`const timeout = 150`). -/
def debounceTimeout : Nat := 150

/-- The bridge's mutable state: `pending` is `timeoutCache` (pilet name,
firing deadline, the payload captured in the timer closure); `fired` is the
list of reload cycles performed so far (firing time and payload), oldest
first; `reloads` counts full-page `location.reload()` calls. -/
structure BridgeState where
  pending : List (String × Nat × PiletMeta)
  fired : List (Nat × PiletMeta)
  reloads : Nat
deriving DecidableEq, Repr

/-- The state before any notification arrives. -/
def initialBridgeState : BridgeState := ⟨[], [], 0⟩

/-- Let every pending timer whose deadline has been reached by time `t`
fire: its cycle is appended to `fired` and it leaves the table. -/
def fireDue (t : Nat) (s : BridgeState) : BridgeState :=
  { pending := s.pending.filter (fun p => decide (t < p.2.1)),
    fired := s.fired ++ (s.pending.filter (fun p => decide (p.2.1 ≤ t))).map
      (fun p => (p.2.1, p.2.2)),
    reloads := s.reloads }

/-- The `ws.onmessage` handler for one notification at time `t`.
`hardRefresh` is the value of `sessionStorage.getItem('dbg:hard-refresh')
=== 'on'` at that moment.  On hard refresh the whole debounce path is
skipped and the page reloads; otherwise `clearTimeout(timeoutCache[name])`
drops the name's pending timer and a fresh timer for `t + 150` holding the
new payload is stored. -/
def handleMessage (hardRefresh : Bool) (t : Nat) (meta : PiletMeta)
    (s : BridgeState) : BridgeState :=
  if hardRefresh then
    { s with reloads := s.reloads + 1 }
  else
    { s with pending :=
        s.pending.filter (fun p => decide (p.1 ≠ meta.name)) ++
          [(meta.name, t + debounceTimeout, meta)] }

/-- Advance the machine over one notification with the hard-refresh flag
off: timers due by the notification's arrival fire first, then the
notification is handled. -/
def bridgeStep (s : BridgeState) (ev : Nat × PiletMeta) : BridgeState :=
  handleMessage false ev.1 ev.2 (fireDue ev.1 s)

/-- Run the machine over a list of timestamped notifications. -/
def bridgeRun (events : List (Nat × PiletMeta)) : BridgeState :=
  events.foldl bridgeStep initialBridgeState

/-- All reload cycles eventually performed for a notification list: the
cycles fired during the run, then the still-pending timers, which fire once
time passes their deadlines. -/
def runBridge (events : List (Nat × PiletMeta)) : List (Nat × PiletMeta) :=
  (bridgeRun events).fired ++
    (bridgeRun events).pending.map (fun p => (p.2.1, p.2.2))

/-- Notifications ordered in time and each arriving within the debounce
window of its predecessor. -/
def withinWindow (a b : Nat × PiletMeta) : Prop :=
  a.1 ≤ b.1 ∧ b.1 < a.1 + debounceTimeout

/-! ## Claim C6 -/

/-- C6: when the hard-refresh session flag is "on" as a notification
arrives, the bridge performs a full page reload and no part of the
debounce/partial-reload path runs: the timer table and the fired cycles are
untouched. -/
theorem handleMessage_hard_refresh (t : Nat) (meta : PiletMeta) (s : BridgeState) :
    (handleMessage true t meta s).pending = s.pending ∧
    (handleMessage true t meta s).fired = s.fired ∧
    (handleMessage true t meta s).reloads = s.reloads + 1 := by
  refine ⟨rfl, rfl, rfl⟩

/-! ## The teardown-then-reload cycle

When a debounce timer fires, the handler runs

  const unfreeze = freezeRouteRefresh();
  removePilet(meta.name).then(() => addPilet(meta)).then(unfreeze, unfreeze);

With single-threaded promise semantics: `addPilet` runs only after
`removePilet` fulfilled; the final `.then(unfreeze, unfreeze)` calls
`unfreeze` exactly once, whether the chain fulfilled or rejected. -/

/-- Settlement of an asynchronous operation: fulfilled or rejected. -/
inductive POutcome where
  | ok
  | err
deriving DecidableEq, Repr

/-- Observable events of one reload cycle, in execution order. -/
inductive CycleAction where
  | freeze
  | removeStart (name : String)
  | removeSettled (name : String) (o : POutcome)
  | addStart (meta : PiletMeta)
  | addSettled (o : POutcome)
  | unfreeze
deriving DecidableEq, Repr

/-- The trace of one fired timer's cycle, given how `removePilet` and
`addPilet` settle in the environment.  `freezeRouteRefresh` is called first;
the promise chain then removes, conditionally adds, and finally calls the
returned `unfreeze` on either settlement of the chain. -/
def runCycle (meta : PiletMeta) (removeOutcome addOutcome : POutcome) :
    List CycleAction :=
  CycleAction.freeze ::
    CycleAction.removeStart meta.name ::
      CycleAction.removeSettled meta.name removeOutcome ::
        (match removeOutcome with
         | POutcome.ok =>
             [CycleAction.addStart meta, CycleAction.addSettled addOutcome,
              CycleAction.unfreeze]
         | POutcome.err => [CycleAction.unfreeze])

/-! ## Claim C4 -/

/-- C4: within any reload cycle, `addPilet` starts only after `removePilet`
for that name has settled — indeed only after it settled successfully: any
`addStart` in the trace carries the cycle's payload and is preceded by a
`removeSettled` for the same name. -/
theorem runCycle_remove_before_add (meta : PiletMeta)
    (removeOutcome addOutcome : POutcome) (i : Nat) (m : PiletMeta)
    (h : (runCycle meta removeOutcome addOutcome)[i]? =
      some (CycleAction.addStart m)) :
    m = meta ∧ removeOutcome = POutcome.ok ∧
      ∃ j, j < i ∧ (runCycle meta removeOutcome addOutcome)[j]? =
        some (CycleAction.removeSettled meta.name POutcome.ok) := by
  cases removeOutcome with
  | ok =>
    match i with
    | 0 => simp [runCycle] at h
    | 1 => simp [runCycle] at h
    | 2 => simp [runCycle] at h
    | 3 =>
      simp [runCycle] at h
      exact ⟨h.symm, rfl, 2, by omega, by simp [runCycle]⟩
    | 4 => simp [runCycle] at h
    | 5 => simp [runCycle] at h
    | n + 6 => simp [runCycle] at h
  | err =>
    match i with
    | 0 => simp [runCycle] at h
    | 1 => simp [runCycle] at h
    | 2 => simp [runCycle] at h
    | 3 => simp [runCycle] at h
    | n + 4 => simp [runCycle] at h

/-- Concrete instantiation of C4: in the successful cycle for pilet "a",
the add at index 3 is preceded by the settled removal. -/
theorem runCycle_remove_before_add_witness :
    (⟨"a", "x"⟩ : PiletMeta) = ⟨"a", "x"⟩ ∧ POutcome.ok = POutcome.ok ∧
      ∃ j, j < 3 ∧ (runCycle ⟨"a", "x"⟩ POutcome.ok POutcome.ok)[j]? =
        some (CycleAction.removeSettled "a" POutcome.ok) :=
  runCycle_remove_before_add ⟨"a", "x"⟩ POutcome.ok POutcome.ok 3 ⟨"a", "x"⟩
    (by rfl)

/-! ## Claim C5 -/

/-- C5: every reload cycle acquires the route-refresh freeze exactly once,
as its first action, and releases it exactly once, as its last action — on
the success path and on both failure paths alike. -/
theorem runCycle_freeze_balanced (meta : PiletMeta)
    (removeOutcome addOutcome : POutcome) :
    (runCycle meta removeOutcome addOutcome).count CycleAction.freeze = 1 ∧
    (runCycle meta removeOutcome addOutcome).count CycleAction.unfreeze = 1 ∧
    (runCycle meta removeOutcome addOutcome).head? = some CycleAction.freeze ∧
    (runCycle meta removeOutcome addOutcome).getLast? =
      some CycleAction.unfreeze := by
  cases removeOutcome <;> cases addOutcome <;>
    simp [runCycle, List.count_cons, List.getLast?]

/-! ## Claim C3: debounce semantics -/

instance (a b : Nat × PiletMeta) : Decidable (withinWindow a b) :=
  inferInstanceAs (Decidable (a.1 ≤ b.1 ∧ b.1 < a.1 + debounceTimeout))

/-- The last notification of `d :: l`. -/
def lastEv (d : Nat × PiletMeta) : List (Nat × PiletMeta) → Nat × PiletMeta
  | [] => d
  | e :: rest => lastEv e rest

theorem getLast?_eq_lastEv (d : Nat × PiletMeta) (l : List (Nat × PiletMeta)) :
    (d :: l).getLast? = some (lastEv d l) := by
  induction l generalizing d with
  | nil => rfl
  | cons e rest ih => rw [List.getLast?_cons_cons, ih e, lastEv]

/-- While a single name's notifications keep arriving inside the debounce
window, the machine holds exactly one pending timer for that name, carrying
the latest payload, and fires nothing. -/
theorem bridge_fold_same_name (name : String) (rest : List (Nat × PiletMeta)) :
    ∀ (t : Nat) (m : PiletMeta) (fired : List (Nat × PiletMeta)) (r : Nat),
      (∀ p ∈ rest, (p.2).name = name) →
      List.Chain' withinWindow ((t, m) :: rest) →
      rest.foldl bridgeStep ⟨[(name, t + debounceTimeout, m)], fired, r⟩ =
        ⟨[(name, (lastEv (t, m) rest).1 + debounceTimeout,
            (lastEv (t, m) rest).2)], fired, r⟩ := by
  induction rest with
  | nil =>
    intro t m fired r _ _
    rfl
  | cons e rest' ih =>
    intro t m fired r hnames hchain
    obtain ⟨t', m'⟩ := e
    rw [List.chain'_cons] at hchain
    obtain ⟨hw, hchain'⟩ := hchain
    have hm' : m'.name = name := hnames (t', m') (List.mem_cons_self _ _)
    have hlt : t' < t + debounceTimeout := hw.2
    have hnle : ¬ (t + debounceTimeout ≤ t') := Nat.not_le.mpr hlt
    have hstep : bridgeStep ⟨[(name, t + debounceTimeout, m)], fired, r⟩ (t', m') =
        ⟨[(name, t' + debounceTimeout, m')], fired, r⟩ := by
      simp [bridgeStep, fireDue, handleMessage, hlt, hnle, hm']
    rw [List.foldl_cons, hstep]
    exact ih t' m' fired r
      (fun p hp => hnames p (List.mem_cons_of_mem _ hp)) hchain'

/-- One machine step cannot create two pending timers for a name: the
per-name keys of the timer table stay pairwise distinct. -/
theorem bridgeStep_keys_nodup (s : BridgeState) (ev : Nat × PiletMeta)
    (h : (s.pending.map (fun p => p.1)).Nodup) :
    ((bridgeStep s ev).pending.map (fun p => p.1)).Nodup := by
  have hsub : ((fireDue ev.1 s).pending.filter
      (fun p => decide (p.1 ≠ ev.2.name))).Sublist s.pending :=
    (List.filter_sublist _).trans (List.filter_sublist _)
  unfold bridgeStep handleMessage
  simp only [Bool.false_eq_true, if_false, List.map_append, List.nodup_append]
  refine ⟨(hsub.map (fun p => p.1)).nodup h, by simp, ?_⟩
  intro a ha hb
  simp only [List.map_cons, List.map_nil, List.mem_singleton] at hb
  subst hb
  simp only [List.mem_map] at ha
  obtain ⟨p, hp, hpa⟩ := ha
  rw [List.mem_filter] at hp
  have hne : p.1 ≠ ev.2.name := by
    have := hp.2
    simpa using this
  exact hne hpa

/-- The timer-table keys are pairwise distinct after any notification
sequence: at most one reload schedule is in flight per pilet name. -/
theorem bridgeRun_keys_nodup (evs : List (Nat × PiletMeta)) :
    ((bridgeRun evs).pending.map (fun p => p.1)).Nodup := by
  suffices h : ∀ s : BridgeState, (s.pending.map (fun p => p.1)).Nodup →
      ((evs.foldl bridgeStep s).pending.map (fun p => p.1)).Nodup by
    exact h initialBridgeState (by simp [initialBridgeState])
  induction evs with
  | nil => intro s hs; exact hs
  | cons e rest ih =>
    intro s hs
    rw [List.foldl_cons]
    exact ih (bridgeStep s e) (bridgeStep_keys_nodup s e hs)

/-- C3: notifications for one pilet name that each arrive within the 150 ms
debounce window of the previous one produce exactly one reload cycle, firing
150 ms after the last notification and carrying the last notification's
payload — and in general the bridge keeps at most one pending reload
schedule per pilet name at any time. -/
theorem bridge_debounce_single_reload (name : String)
    (events : List (Nat × PiletMeta)) (hne : events ≠ [])
    (hnames : ∀ p ∈ events, (p.2).name = name)
    (hchain : List.Chain' withinWindow events) :
    (∃ last, events.getLast? = some last ∧
      runBridge events = [(last.1 + debounceTimeout, last.2)]) ∧
    ∀ evs : List (Nat × PiletMeta),
      ((bridgeRun evs).pending.map (fun p => p.1)).Nodup := by
  refine ⟨?_, fun evs => bridgeRun_keys_nodup evs⟩
  match events, hne with
  | (t0, m0) :: rest, _ =>
    have hm0 : m0.name = name := hnames (t0, m0) (List.mem_cons_self _ _)
    have hstep0 : bridgeStep initialBridgeState (t0, m0) =
        ⟨[(name, t0 + debounceTimeout, m0)], [], 0⟩ := by
      simp [bridgeStep, fireDue, handleMessage, initialBridgeState, hm0]
    have hfold : bridgeRun ((t0, m0) :: rest) =
        ⟨[(name, (lastEv (t0, m0) rest).1 + debounceTimeout,
            (lastEv (t0, m0) rest).2)], [], 0⟩ := by
      rw [bridgeRun, List.foldl_cons, hstep0]
      exact bridge_fold_same_name name rest t0 m0 [] 0
        (fun p hp => hnames p (List.mem_cons_of_mem _ hp)) hchain
    refine ⟨lastEv (t0, m0) rest, getLast?_eq_lastEv _ _, ?_⟩
    rw [runBridge, hfold]
    rfl

/-- Concrete instantiation of C3: two notifications for pilet "a" at 0 ms
and 50 ms yield exactly one cycle, at 200 ms, with the second payload. -/
theorem bridge_debounce_single_reload_witness :
    runBridge [(0, ⟨"a", "p1"⟩), (50, ⟨"a", "p2"⟩)] = [(200, ⟨"a", "p2"⟩)] := by
  obtain ⟨⟨last, hlast, hrun⟩, -⟩ :=
    bridge_debounce_single_reload "a" [(0, ⟨"a", "p1"⟩), (50, ⟨"a", "p2"⟩)]
      (by decide) (by decide)
      (List.chain'_cons.mpr
        ⟨⟨by decide, by decide⟩, List.chain'_singleton _⟩)
  have h2 : ([(0, (⟨"a", "p1"⟩ : PiletMeta)), (50, ⟨"a", "p2"⟩)]).getLast? =
      some (50, (⟨"a", "p2"⟩ : PiletMeta)) := by rfl
  rw [h2] at hlast
  have h3 : last = (50, (⟨"a", "p2"⟩ : PiletMeta)) := (Option.some.inj hlast).symm
  rw [h3] at hrun
  exact hrun

/-! ## Feed selection, normalization and merge (`installPiletEmulator`)

The emulator chooses its feed requester from the `dbg:load-pilets` session
flag, resolves the pilet API path from `window['dbg:pilet-api']` with the
`piletApiFallback` option defaulting to `/$pilet-api`, normalizes the JSON
response of the debug endpoint, and merges feed pilets with debug pilets,
debug winning on name clashes. -/

/-- Result type of a pilet requester call: a fulfilled list of pilet
descriptors or a rejection. -/
def RequesterResult : Type := Except String (List PiletMeta)

/-- The requester `noPilets`, which resolves with the empty list. -/
def noPilets : RequesterResult := Except.ok []

/-- The selection `const requester = loadPilets ? requestPilets : noPilets` where
`loadPilets` is `sessionStorage.getItem('dbg:load-pilets') === 'on'`.
`loadFlag` is the stored session value (`none` when unset). -/
def selectRequester (loadFlag : Option String)
    (requestPilets : RequesterResult) : RequesterResult :=
  if loadFlag == some "on" then requestPilets else noPilets

/-- The path resolution `window['dbg:pilet-api'] || piletApiFallback` with the destructuring
default `piletApiFallback = '/$pilet-api'`.  A present but empty string is
falsy in JavaScript, so it also falls back. -/
def resolvePiletApi (dbgPiletApi : Option String)
    (piletApiFallbackOpt : Option String) : String :=
  let fallback := piletApiFallbackOpt.getD "/$pilet-api"
  match dbgPiletApi with
  | some s => if s = "" then fallback else s
  | none => fallback

/-- A JSON body of the debug endpoint: an array of descriptors or a single
descriptor. -/
inductive FeedResponse where
  | single (m : PiletMeta)
  | array (l : List PiletMeta)
deriving DecidableEq, Repr

/-- Response normalization: `(item) => (Array.isArray(item) ? item : [item])`. -/
def normalizeFeedResponse : FeedResponse → List PiletMeta
  | FeedResponse.single m => [m]
  | FeedResponse.array l => l

/-- The final merge of the requester's pilets with the debug endpoint's
pilets: feed pilets whose name occurs among the debug pilets are filtered
out, then the debug pilets are appended. -/
def combinePilets (pilets debugPilets : List PiletMeta) : List PiletMeta :=
  (pilets.filter
    (fun m => !((debugPilets.map (fun d => d.name)).contains m.name))) ++
    debugPilets

/-- The catch handler on the feed promise, which reports to the console and returns the empty list: a rejected
feed request is replaced by the empty list. -/
def caughtFeed (feed : RequesterResult) : List PiletMeta :=
  match feed with
  | Except.ok ps => ps
  | Except.error _ => []

/-- The initial pilet list handed to the loader: the (error-caught) feed
result merged with the debug pilets. -/
def initialPilets (feed : RequesterResult) (debugPilets : List PiletMeta) :
    List PiletMeta :=
  combinePilets (caughtFeed feed) debugPilets

/-! ## Claim C8 -/

/-- C8: the pilet API path defaults to `/$pilet-api` when neither the
window override nor the option is configured; a single-descriptor response
normalizes to a one-element list while an array is used as-is; and whenever
the load-pilets session flag is anything other than "on", the selected
requester is `noPilets`, which resolves to the empty list. -/
theorem emulator_feed_request_behavior (loadFlag : Option String)
    (requestPilets : RequesterResult)
    (hflag : loadFlag ≠ some "on") :
    resolvePiletApi none none = "/$pilet-api" ∧
    (∀ m, normalizeFeedResponse (FeedResponse.single m) = [m]) ∧
    (∀ l, normalizeFeedResponse (FeedResponse.array l) = l) ∧
    selectRequester loadFlag requestPilets = Except.ok [] := by
  refine ⟨rfl, fun m => rfl, fun l => rfl, ?_⟩
  rw [selectRequester]
  have : (loadFlag == some "on") = false := by
    cases h : loadFlag == some "on" with
    | false => rfl
    | true => exact absurd (eq_of_beq h) hflag
  rw [this]
  rfl

/-- Concrete instantiation of C8: with the flag unset the requester yields
no pilets even if the feed would return one. -/
theorem emulator_feed_request_behavior_witness :
    selectRequester none (Except.ok [⟨"a", "x"⟩]) = Except.ok [] :=
  (emulator_feed_request_behavior none (Except.ok [⟨"a", "x"⟩])
    (by decide)).2.2.2

/-! ## Claim C9 -/

/-- C9: the combined initial list drops every feed pilet whose name occurs
among the debug pilets and is exactly the remaining feed pilets in their
original order followed by the debug pilets in their original order; a
pilet is in the result precisely when it is a feed pilet with a name not
present in the debug set, or a debug pilet. -/
theorem combinePilets_debug_precedence (pilets debugPilets : List PiletMeta) :
    combinePilets pilets debugPilets =
      (pilets.filter
        (fun m => decide (m.name ∉ debugPilets.map (fun d => d.name)))) ++
        debugPilets ∧
    ∀ m, m ∈ combinePilets pilets debugPilets ↔
      ((m ∈ pilets ∧ m.name ∉ debugPilets.map (fun d => d.name)) ∨
        m ∈ debugPilets) := by
  have hfe : ∀ m : PiletMeta,
      (!((debugPilets.map (fun d => d.name)).contains m.name)) =
        decide (m.name ∉ debugPilets.map (fun d => d.name)) := by
    intro m
    by_cases h : m.name ∈ debugPilets.map (fun d => d.name)
    · simp [h]
    · simp [h]
  constructor
  · rw [combinePilets]
    congr 1
    exact List.filter_congr (fun m _ => hfe m)
  · intro m
    rw [combinePilets, List.mem_append, List.mem_filter]
    constructor
    · intro h
      rcases h with h | h
      · refine Or.inl ⟨h.1, ?_⟩
        have := h.2
        rw [hfe m] at this
        exact of_decide_eq_true this
      · exact Or.inr h
    · intro h
      rcases h with ⟨h1, h2⟩ | h
      · exact Or.inl ⟨h1, by rw [hfe m]; exact decide_eq_true h2⟩
      · exact Or.inr h

/-! ## Claim C10 -/

/-- C10: a rejected feed request is not propagated: its contribution is the
empty list and the initial pilet set is then exactly the debug endpoint's
pilets. -/
theorem initialPilets_feed_rejected (err : String)
    (debugPilets : List PiletMeta) :
    caughtFeed (Except.error err) = [] ∧
    initialPilets (Except.error err) debugPilets = debugPilets := by
  refine ⟨rfl, ?_⟩
  rw [initialPilets, caughtFeed, combinePilets]
  rfl

/-! ## Shared dependency codegen (`createDependencies` in `app.codegen`)

`createDependencies` generates the `fillDependencies` function: for each
shared external it pushes one `import * as _k from '<name>'` statement and
one assignment `deps[id] = _k` per identifier of that external (the plain
name, and `name@version` when the package version is known); before that it
may assign a fresh empty object under the app's own name.  We model the
generated code symbolically: an import list of module specifiers and an
ordered assignment list, executed left to right with later assignments
overwriting earlier ones, exactly as the generated JavaScript does.  Two
imports of the same specifier yield the same live module instance, so the
specifier a reference resolves to identifies the instance. -/

/-- A value assigned into the dependency map: the empty object assigned
under the app name, or a reference `_n` to the `n`-th import. -/
inductive DepVal where
  | emptyObj
  | moduleRef (n : Nat)
deriving DecidableEq, Repr

/-- The generated module: pushed import specifiers and the ordered
assignments of the generated `fillDependencies` body. -/
structure Codegen where
  imports : List String
  assignments : List (String × DepVal)
deriving DecidableEq, Repr

/-- The helper `getIdentifiers` from `app.codegen`: the plain package name, plus
`name@version` when the package's version is known (`versionOf` models the
`require(packageJson)` lookup). -/
def getIdentifiers (versionOf : String → Option String)
    (packageName : String) : List String :=
  match versionOf packageName with
  | some v => [packageName, packageName ++ "@" ++ v]
  | none => [packageName]

/-- One iteration of the `for (const name of externals)` loop: push one
fresh module specifier and assign its reference under every identifier. -/
def depStep (versionOf : String → Option String) (cg : Codegen)
    (name : String) : Codegen :=
  { imports := cg.imports ++ [name],
    assignments := cg.assignments ++
      (getIdentifiers versionOf name).map
        (fun id => (id, DepVal.moduleRef cg.imports.length)) }

/-- The generator `createDependencies`: the app-name assignment (when the app name is a
nonempty string), then the loop over the shared externals. -/
def createDependencies (appName : String)
    (versionOf : String → Option String) (externals : List String) : Codegen :=
  externals.foldl (depStep versionOf)
    { imports := [],
      assignments :=
        if appName = "" then [] else [(appName, DepVal.emptyObj)] }

/-- Executing the generated `fillDependencies` body on an empty dependency
map and reading `deps[id]`: assignments run left to right, later ones
overwriting earlier ones. -/
def fillDependencies (cg : Codegen) (id : String) : Option DepVal :=
  cg.assignments.foldl (fun acc p => if p.1 = id then some p.2 else acc) none

/-- The module specifier the identifier `id` finally resolves to.  Since
the ES module system returns one instance per specifier, identifiers
resolving to the same specifier observe the same live instance. -/
def resolveDependency (cg : Codegen) (id : String) : Option String :=
  match fillDependencies cg id with
  | some (DepVal.moduleRef n) => cg.imports[n]?
  | _ => none

theorem lookup_map_const (id : String) (c : DepVal) (ids : List String) :
    ∀ acc : Option DepVal,
      (ids.map (fun i => (i, c))).foldl
        (fun acc p => if p.1 = id then some p.2 else acc) acc =
        if id ∈ ids then some c else acc := by
  induction ids with
  | nil => intro acc; simp
  | cons a rest ih =>
    intro acc
    rw [List.map_cons, List.foldl_cons, ih]
    by_cases har : id ∈ rest
    · simp [har]
    · by_cases ha : a = id
      · subst ha
        simp [har]
      · have : ¬ id ∈ a :: rest := by
          intro hmem
          rcases List.mem_cons.mp hmem with h | h
          · exact ha h.symm
          · exact har h
        simp [har, ha, this]

/-- Lookup after one loop iteration: identifiers of the new external map to
the fresh reference; everything else is unchanged. -/
theorem fillDependencies_depStep (versionOf : String → Option String)
    (cg : Codegen) (nm id : String) :
    fillDependencies (depStep versionOf cg nm) id =
      if id ∈ getIdentifiers versionOf nm then
        some (DepVal.moduleRef cg.imports.length)
      else fillDependencies cg id := by
  rw [fillDependencies, depStep]
  rw [List.foldl_append]
  exact lookup_map_const id _ _ _

/-- The iteration for external `name` makes every one of its identifiers
resolve to `name`. -/
theorem resolveDependency_depStep_self (versionOf : String → Option String)
    (cg : Codegen) (name id : String)
    (h : id ∈ getIdentifiers versionOf name) :
    resolveDependency (depStep versionOf cg name) id = some name := by
  rw [resolveDependency, fillDependencies_depStep]
  rw [if_pos h]
  show (depStep versionOf cg name).imports[cg.imports.length]? = some name
  rw [depStep]
  rw [List.getElem?_append_right (Nat.le_refl _)]
  simp

/-- Later iterations preserve a resolution, provided they only reassign the
identifier to the same external. -/
theorem resolveDependency_depStep_preserved (versionOf : String → Option String)
    (cg : Codegen) (nm id name : String)
    (hres : resolveDependency cg id = some name)
    (hid : id ∈ getIdentifiers versionOf nm → nm = name) :
    resolveDependency (depStep versionOf cg nm) id = some name := by
  by_cases h : id ∈ getIdentifiers versionOf nm
  · have heq : nm = name := hid h
    subst heq
    exact resolveDependency_depStep_self versionOf cg nm id h
  · rw [resolveDependency, fillDependencies_depStep, if_neg h]
    rw [resolveDependency] at hres
    cases hf : fillDependencies cg id with
    | none =>
      rw [hf] at hres
      exact absurd hres (by simp)
    | some v =>
      cases v with
      | emptyObj =>
        rw [hf] at hres
        exact absurd hres (by simp)
      | moduleRef n =>
        rw [hf] at hres
        have hres2 : cg.imports[n]? = some name := hres
        have hn : n < cg.imports.length := by
          by_contra hge
          rw [List.getElem?_eq_none (Nat.le_of_not_lt hge)] at hres2
          exact absurd hres2 (by simp)
        show (cg.imports ++ [nm])[n]? = some name
        rw [List.getElem?_append_left hn]
        exact hres2

theorem resolveDependency_foldl (versionOf : String → Option String)
    (name id : String) (rest : List String) :
    ∀ cg : Codegen,
      resolveDependency cg id = some name →
      (∀ nm ∈ rest, id ∈ getIdentifiers versionOf nm → nm = name) →
      resolveDependency (rest.foldl (depStep versionOf) cg) id = some name := by
  induction rest with
  | nil => intro cg h _; exact h
  | cons nm rest' ih =>
    intro cg h hu
    rw [List.foldl_cons]
    exact ih (depStep versionOf cg nm)
      (resolveDependency_depStep_preserved versionOf cg nm id name h
        (hu nm (List.mem_cons_self _ _)))
      (fun nm' hnm' => hu nm' (List.mem_cons_of_mem _ hnm'))

theorem createDependencies_imports_eq (appName : String)
    (versionOf : String → Option String) (externals : List String) :
    (createDependencies appName versionOf externals).imports = externals := by
  rw [createDependencies]
  have h : ∀ (l : List String) (cg : Codegen),
      (l.foldl (depStep versionOf) cg).imports = cg.imports ++ l := by
    intro l
    induction l with
    | nil => intro cg; simp
    | cons a rest ih =>
      intro cg
      rw [List.foldl_cons, ih, depStep]
      simp
  rw [h]
  simp

/-- Any identifier of the external `name` — provided no other external in
the list claims that identifier — resolves to the single import of
`name`. -/
theorem createDependencies_resolves (appName : String)
    (versionOf : String → Option String) (externals : List String)
    (name id : String) (hmem : name ∈ externals)
    (hid : id ∈ getIdentifiers versionOf name)
    (hu : ∀ nm ∈ externals, id ∈ getIdentifiers versionOf nm → nm = name) :
    resolveDependency (createDependencies appName versionOf externals) id =
      some name := by
  obtain ⟨pre, post, rfl⟩ := List.append_of_mem hmem
  rw [createDependencies, List.foldl_append, List.foldl_cons]
  apply resolveDependency_foldl
  · exact resolveDependency_depStep_self versionOf _ name id hid
  · intro nm hnm hidnm
    exact hu nm (by simp [hnm]) hidnm

/-! ## Claim C7 -/

/-- C7: the generated `fillDependencies` imports each shared external
exactly once — the import list is exactly the externals list — and assigns
that single module reference under all of that external's identifiers
(plain name and name@version), so any two identifiers of the same external
resolve to the same specifier and hence to the referentially identical live
instance. -/
theorem createDependencies_shared_identity (appName : String)
    (versionOf : String → Option String) (externals : List String)
    (name id1 id2 : String) (hmem : name ∈ externals)
    (h1 : id1 ∈ getIdentifiers versionOf name)
    (h2 : id2 ∈ getIdentifiers versionOf name)
    (hu1 : ∀ nm ∈ externals, id1 ∈ getIdentifiers versionOf nm → nm = name)
    (hu2 : ∀ nm ∈ externals, id2 ∈ getIdentifiers versionOf nm → nm = name) :
    (createDependencies appName versionOf externals).imports = externals ∧
    resolveDependency (createDependencies appName versionOf externals) id1 =
      some name ∧
    resolveDependency (createDependencies appName versionOf externals) id2 =
      resolveDependency (createDependencies appName versionOf externals) id1 := by
  have r1 := createDependencies_resolves appName versionOf externals name id1
    hmem h1 hu1
  have r2 := createDependencies_resolves appName versionOf externals name id2
    hmem h2 hu2
  exact ⟨createDependencies_imports_eq appName versionOf externals, r1,
    r2.trans r1.symm⟩

/-- Concrete instantiation of C7: with `react` at version 17.0.0 the
identifiers `react` and `react@17.0.0` both resolve to the one imported
`react` instance. -/
theorem createDependencies_shared_identity_witness :
    (createDependencies "my-app"
        (fun n => if n = "react" then some "17.0.0" else none)
        ["react"]).imports = ["react"] ∧
    resolveDependency (createDependencies "my-app"
        (fun n => if n = "react" then some "17.0.0" else none)
        ["react"]) "react" = some "react" ∧
    resolveDependency (createDependencies "my-app"
        (fun n => if n = "react" then some "17.0.0" else none)
        ["react"]) "react@17.0.0" =
      resolveDependency (createDependencies "my-app"
        (fun n => if n = "react" then some "17.0.0" else none)
        ["react"]) "react" :=
  createDependencies_shared_identity "my-app"
    (fun n => if n = "react" then some "17.0.0" else none) ["react"]
    "react" "react" "react@17.0.0" (by decide) (by decide) (by decide)
    (by decide) (by decide)
